import Mathlib

/-
Verification of the RainwaterHarvester simulation module
(src/RainwaterSimulation.js).

Numbers are modelled as rationals (ℚ); the rainfall generator, which uses
the transcendental functions sqrt, log and cos, is modelled over the reals
(ℝ).  JS array accesses that can hit an undefined slot, and the Box-Muller
transform at a zero uniform draw (log of zero is undefined), are modelled
with Option.
-/

/-- Models JS Number.toFixed(1): rounding to one decimal place.  JS returns
the decimal string; we model its numeric value.  Per the ECMAScript
definition the chosen integer n minimises the distance of n / 10 to x,
ties going to the larger n, i.e. rounding half toward positive infinity. -/
def toFixed1 (x : ℚ) : ℚ := (⌊10 * x + 1 / 2⌋ : ℚ) / 10

/-- The constructor state of the RainwaterHarvester class: roofArea and
runoffCoefficient (the JS default 0.8 is supplied by the caller here). -/
structure RainwaterHarvester where
  roofArea : ℚ
  runoffCoefficient : ℚ

/-- One day of simulateRainfall: given the day's two uniform draws u1 and
u2, the Box-Muller variate is z = sqrt(-2 log u1) * cos(2 pi u2) and the
sample is max(0, meanRainfall + stdDev * z), exactly as in the source.
At u1 = 0 the transform takes the logarithm of zero, which is undefined
over ℝ; that day's sample is modelled as none (no numeric value). -/
noncomputable def boxMullerSample (meanRainfall stdDev u1 u2 : ℝ) :
    Option ℝ :=
  if u1 = 0 then none
  else some (max 0 (meanRainfall + stdDev *
    (Real.sqrt (-2 * Real.log u1) * Real.cos (2 * Real.pi * u2))))

/-- simulateRainfall(days, meanRainfall, stdDev) from the source.  The
two Math.random() calls of day i are modelled as the explicit draw
streams u1 i and u2 i, so that properties can be stated for every
possible sequence of draws. -/
noncomputable def simulateRainfall (days : ℕ) (meanRainfall stdDev : ℝ)
    (u1 u2 : ℕ → ℝ) : List (Option ℝ) :=
  (List.range days).map fun i =>
    boxMullerSample meanRainfall stdDev (u1 i) (u2 i)

/-- calculateHarvestedWater(rainfallData) from the source: element-wise
dailyRainfall * this.roofArea * this.runoffCoefficient. -/
def calculateHarvestedWater (self : RainwaterHarvester)
    (rainfallData : List ℚ) : List ℚ :=
  rainfallData.map fun dailyRainfall =>
    dailyRainfall * self.roofArea * self.runoffCoefficient

/-- The loop body of optimizeStorageCapacity, iterated over the harvested
series.  State is (currentStorage, maxStorageNeeded, overflow), all
starting at 0.  Mirrors the source exactly: first currentStorage is
increased by the day's harvest and decreased by dailyConsumption; then the
if/else-if clamps a negative storage to 0 or raises maxStorageNeeded; then
a second, separate if adds any excess over maxStorageNeeded to overflow
and caps currentStorage. -/
def optLoop (dailyConsumption : ℚ) :
    List ℚ → ℚ → ℚ → ℚ → ℚ × ℚ
  | [], _, maxStorageNeeded, overflow => (maxStorageNeeded, overflow)
  | dailyHarvest :: rest, currentStorage, maxStorageNeeded, overflow =>
    let s1 := currentStorage + dailyHarvest - dailyConsumption
    let s2 := if s1 < 0 then 0 else s1
    let m2 := if s1 < 0 then maxStorageNeeded
              else if s1 > maxStorageNeeded then s1 else maxStorageNeeded
    let s3 := if s2 > m2 then m2 else s2
    let o3 := if s2 > m2 then overflow + (s2 - m2) else overflow
    optLoop dailyConsumption rest s3 m2 o3

/-- optimizeStorageCapacity(harvestedWater, dailyConsumption) from the
source: returns (maxStorageNeeded, overflow) after the forward pass with
all three state variables starting at 0. -/
def optimizeStorageCapacity (harvestedWater : List ℚ)
    (dailyConsumption : ℚ) : ℚ × ℚ :=
  optLoop dailyConsumption harvestedWater 0 0 0

/-- Modelled from the spec's words: the running totals of cumulative net
inflow (harvested minus consumption), clamped to 0 whenever the total goes
negative, one entry per day. -/
def specClampedTotals (dailyConsumption : ℚ) : ℚ → List ℚ → List ℚ
  | _, [] => []
  | total, dailyHarvest :: rest =>
    let next := max 0 (total + dailyHarvest - dailyConsumption)
    next :: specClampedTotals dailyConsumption next rest

/-- Modelled from the spec's words: the running maximum, over all days, of
the clamped cumulative net inflow, starting from 0. -/
def specRunningMaxStorage (harvested : List ℚ) (dailyConsumption : ℚ) : ℚ :=
  (specClampedTotals dailyConsumption 0 harvested).foldl max 0

/-- One entry of the weekly table: the JS object with fields day (i + 1),
rainfall and harvestedWater (both toFixed(1)). -/
structure WeeklyEntry where
  day : ℕ
  rainfall : ℚ
  harvestedWater : ℚ
deriving DecidableEq

/-- One entry of the monthly table: the JS object with fields month,
rainfall and harvestedWater (both toFixed(1)). -/
structure MonthlyEntry where
  month : ℕ
  rainfall : ℚ
  harvestedWater : ℚ
deriving DecidableEq

/-- One iteration of the getWeeklyData loop: reads rainfallData[i] and
harvestedWater[i]; in JS an out-of-range access yields undefined and
undefined.toFixed(1) throws a TypeError, which is modelled as none. -/
def weeklyEntry (rainfallData harvestedWater : List ℚ) (i : ℕ) :
    Option WeeklyEntry :=
  match rainfallData[i]?, harvestedWater[i]? with
  | some r, some h => some ⟨i + 1, toFixed1 r, toFixed1 h⟩
  | _, _ => none

/-- The getWeeklyData loop over a list of indices: builds the entries in
order and propagates failure (a thrown TypeError) as none. -/
def weeklyLoop (rainfallData harvestedWater : List ℚ) :
    List ℕ → Option (List WeeklyEntry)
  | [] => some []
  | i :: is =>
    match weeklyEntry rainfallData harvestedWater i with
    | some e =>
      match weeklyLoop rainfallData harvestedWater is with
      | some rest => some (e :: rest)
      | none => none
    | none => none

/-- getWeeklyData(rainfallData, harvestedWater) from the source: the loop
for i = 0 to 6 pushing day/rainfall/harvestedWater objects; none models
the TypeError thrown when an input series is shorter than 7. -/
def getWeeklyData (rainfallData harvestedWater : List ℚ) :
    Option (List WeeklyEntry) :=
  weeklyLoop rainfallData harvestedWater (List.range 7)

/-- getMonthlyData(rainfallData, harvestedWater) from the source: period
is 30, numMonths = floor(rainfallData.length / 30), and entry i sums the
slice [i * 30, i * 30 + 30) of each series (JS slice clamps to the array
end, as drop/take do), rounded to one decimal. -/
def getMonthlyData (rainfallData harvestedWater : List ℚ) :
    List MonthlyEntry :=
  let period := 30
  let numMonths := rainfallData.length / period
  (List.range numMonths).map fun i =>
    ⟨i + 1,
      toFixed1 ((rainfallData.drop (i * period)).take period).sum,
      toFixed1 ((harvestedWater.drop (i * period)).take period).sum⟩

lemma foldl_max_init_le (l : List ℚ) : ∀ a : ℚ, a ≤ l.foldl max a := by
  induction l with
  | nil => intro a; exact le_rfl
  | cons x t ih =>
    intro a
    exact le_trans (le_max_left a x) (ih (max a x))

/-- The loop invariant of optimizeStorageCapacity: started from any state
with 0 ≤ currentStorage ≤ maxStorageNeeded, the loop returns the running
maximum of the clamped totals and never touches overflow. -/
lemma optLoop_eq (dailyConsumption : ℚ) (l : List ℚ) :
    ∀ cs mx ov : ℚ, 0 ≤ cs → cs ≤ mx →
      optLoop dailyConsumption l cs mx ov =
        ((specClampedTotals dailyConsumption cs l).foldl max mx, ov) := by
  induction l with
  | nil => intro cs mx ov h0 hle; rfl
  | cons dailyHarvest rest ih =>
    intro cs mx ov h0 hle
    have hmx : (0 : ℚ) ≤ mx := le_trans h0 hle
    by_cases hneg : cs + dailyHarvest - dailyConsumption < 0
    · have hclamp : max 0 (cs + dailyHarvest - dailyConsumption) = 0 :=
        max_eq_left (le_of_lt hneg)
      have hnotover : ¬ ((0 : ℚ) > mx) := not_lt.mpr hmx
      simp only [optLoop, specClampedTotals, if_pos hneg, if_neg hnotover,
        List.foldl_cons, hclamp, max_eq_left hmx]
      exact ih 0 mx ov le_rfl hmx
    · have hpos : (0 : ℚ) ≤ cs + dailyHarvest - dailyConsumption :=
        not_lt.mp hneg
      have hclamp : max 0 (cs + dailyHarvest - dailyConsumption) =
          cs + dailyHarvest - dailyConsumption := max_eq_right hpos
      by_cases hgt : cs + dailyHarvest - dailyConsumption > mx
      · have hnotover :
            ¬ (cs + dailyHarvest - dailyConsumption >
               cs + dailyHarvest - dailyConsumption) := lt_irrefl _
        simp only [optLoop, specClampedTotals, if_neg hneg, if_pos hgt,
          if_neg hnotover, List.foldl_cons, hclamp,
          max_eq_right (le_of_lt hgt)]
        exact ih _ _ ov hpos le_rfl
      · simp only [optLoop, specClampedTotals, if_neg hneg, if_neg hgt,
          List.foldl_cons, hclamp, max_eq_left (not_lt.mp hgt)]
        exact ih _ _ ov hpos (not_lt.mp hgt)

lemma weeklyLoop_eq_some_map (rainfallData harvestedWater : List ℚ)
    (g : ℕ → WeeklyEntry) :
    ∀ l : List ℕ,
      (∀ i ∈ l, weeklyEntry rainfallData harvestedWater i = some (g i)) →
      weeklyLoop rainfallData harvestedWater l = some (l.map g) := by
  intro l
  induction l with
  | nil => intro _; rfl
  | cons i is ih =>
    intro hall
    have hi := hall i (List.mem_cons_self i is)
    have hrest := ih fun j hj => hall j (List.mem_cons_of_mem i hj)
    simp only [weeklyLoop, hi, hrest, List.map_cons]

lemma weeklyLoop_eq_none (rainfallData harvestedWater : List ℚ) :
    ∀ l : List ℕ,
      (∃ i ∈ l, weeklyEntry rainfallData harvestedWater i = none) →
      weeklyLoop rainfallData harvestedWater l = none := by
  intro l
  induction l with
  | nil => rintro ⟨i, hi, _⟩; exact absurd hi (List.not_mem_nil i)
  | cons j is ih =>
    rintro ⟨i, hi, hnone⟩
    rcases List.mem_cons.mp hi with rfl | hmem
    · simp only [weeklyLoop, hnone]
    · cases hj : weeklyEntry rainfallData harvestedWater j with
      | none => simp only [weeklyLoop, hj]
      | some e => simp only [weeklyLoop, hj, ih ⟨i, hmem, hnone⟩]

lemma take_sum_eq_range (l : List ℚ) :
    ∀ m : ℕ, m ≤ l.length →
      (l.take m).sum = ((List.range m).map fun j => l.getD j 0).sum := by
  intro m
  induction m with
  | zero => intro _; rfl
  | succ m ih =>
    intro hm
    have hml : m < l.length := Nat.lt_of_succ_le hm
    have hsome : l[m]? = some l[m] := List.getElem?_eq_getElem hml
    rw [List.take_succ, List.sum_append, ih (le_of_lt hml),
      List.range_succ, List.map_append, List.sum_append, hsome]
    simp [List.getD_eq_getElem?_getD, hsome]

lemma slice_sum_eq (l : List ℚ) (s m : ℕ) (h : s + m ≤ l.length) :
    ((l.drop s).take m).sum =
      ((List.range m).map fun j => l.getD (s + j) 0).sum := by
  have hlen : m ≤ (l.drop s).length := by
    rw [List.length_drop]
    omega
  rw [take_sum_eq_range (l.drop s) m hlen]
  congr 1
  apply List.map_congr_left
  intro j _
  simp [List.getD_eq_getElem?_getD, List.getElem?_drop]

lemma blocks_sum_eq_take (l : List ℚ) :
    ∀ k : ℕ,
      ((List.range k).map fun i => ((l.drop (i * 30)).take 30).sum).sum =
        (l.take (k * 30)).sum := by
  intro k
  induction k with
  | zero => rfl
  | succ k ih =>
    rw [List.range_succ, List.map_append, List.sum_append, ih]
    have : (k + 1) * 30 = k * 30 + 30 := by ring
    rw [this, List.take_add, List.sum_append]
    simp

lemma take_sum_le_total (l : List ℚ) (m : ℕ)
    (hnn : ∀ x ∈ l, 0 ≤ x) : (l.take m).sum ≤ l.sum := by
  have hsplit : (l.take m).sum + (l.drop m).sum = l.sum := by
    rw [← List.sum_append, List.take_append_drop]
  have hdrop : 0 ≤ (l.drop m).sum :=
    List.sum_nonneg fun x hx => hnn x ((List.drop_sublist m l).subset hx)
  linarith

lemma toFixed1_le_add_slack (x : ℚ) : toFixed1 x ≤ x + 1 / 20 := by
  have h : (⌊10 * x + 1 / 2⌋ : ℚ) ≤ 10 * x + 1 / 2 := Int.floor_le _
  rw [toFixed1]
  linarith

lemma sum_map_add_split (f g : ℕ → ℚ) :
    ∀ l : List ℕ,
      (l.map fun i => f i + g i).sum = (l.map f).sum + (l.map g).sum := by
  intro l
  induction l with
  | nil => simp
  | cons x t ih => simp [ih]; ring

/-- C1: for every harvested series and every dailyConsumption, the
maxStorageNeeded returned by optimizeStorageCapacity equals the running
maximum over all days of the cumulative net inflow, with the running total
clamped to 0 whenever it goes negative. -/
theorem optimizeStorageCapacity_eq_runningMax
    (harvestedWater : List ℚ) (dailyConsumption : ℚ) :
    (optimizeStorageCapacity harvestedWater dailyConsumption).1 =
      specRunningMaxStorage harvestedWater dailyConsumption := by
  rw [optimizeStorageCapacity,
    optLoop_eq dailyConsumption harvestedWater 0 0 0 le_rfl le_rfl]
  rfl

/-- C2: for every harvested series and every dailyConsumption (over the
rational embedding, so in particular for negative and zero values), the
overflow returned by optimizeStorageCapacity is exactly 0: the
overflow-adding branch is unreachable. -/
theorem optimizeStorageCapacity_overflow_eq_zero
    (harvestedWater : List ℚ) (dailyConsumption : ℚ) :
    (optimizeStorageCapacity harvestedWater dailyConsumption).2 = 0 := by
  rw [optimizeStorageCapacity,
    optLoop_eq dailyConsumption harvestedWater 0 0 0 le_rfl le_rfl]

/-- C3 as stated is false: with the uniform draws modelled as values in
[0,1), the draw u1 = 0 is allowed, and then the day's sample takes the
logarithm of zero and is not a numeric value (modelled as none), so not
every element of the returned series is a nonnegative number. -/
theorem simulateRainfall_zero_draw_counterexample :
    simulateRainfall 1 5 2 (fun _ => 0) (fun _ => 0) = [none] ∧
      ¬ ∀ x ∈ simulateRainfall 1 5 2 (fun _ => 0) (fun _ => 0),
          ∃ r : ℝ, x = some r ∧ 0 ≤ r := by
  constructor
  · simp [simulateRainfall, boxMullerSample]
  · intro h
    have hmem : none ∈ simulateRainfall 1 5 2 (fun _ => (0 : ℝ))
        (fun _ => (0 : ℝ)) := by
      simp [simulateRainfall, boxMullerSample]
    rcases h none hmem with ⟨r, hr, _⟩
    exact Option.noConfusion hr

/-- C3 amended: for all days > 0 and all mean and stdDev, when every u1
draw lies in (0,1) (the open interval, excluding 0) and every u2 draw lies
in [0,1), simulateRainfall returns a series of length exactly days in
which every element is a numeric value ≥ 0. -/
theorem simulateRainfall_length_nonneg_of_pos_draws
    (days : ℕ) (meanRainfall stdDev : ℝ) (u1 u2 : ℕ → ℝ)
    (hdays : 0 < days)
    (hu1 : ∀ i, 0 < u1 i ∧ u1 i < 1)
    (hu2 : ∀ i, 0 ≤ u2 i ∧ u2 i < 1) :
    (simulateRainfall days meanRainfall stdDev u1 u2).length = days ∧
      ∀ x ∈ simulateRainfall days meanRainfall stdDev u1 u2,
        ∃ r : ℝ, x = some r ∧ 0 ≤ r := by
  constructor
  · simp [simulateRainfall]
  · intro x hx
    rw [simulateRainfall] at hx
    rcases List.mem_map.mp hx with ⟨i, _, rfl⟩
    have hne : u1 i ≠ 0 := ne_of_gt (hu1 i).1
    refine ⟨max 0 (meanRainfall + stdDev *
      (Real.sqrt (-2 * Real.log (u1 i)) * Real.cos (2 * Real.pi * (u2 i)))),
      ?_, le_max_left _ _⟩
    rw [boxMullerSample, if_neg hne]

theorem simulateRainfall_length_nonneg_witness :
    (simulateRainfall 1 5 2 (fun _ => (1 : ℝ) / 2)
        (fun _ => (1 : ℝ) / 2)).length = 1 ∧
      ∀ x ∈ simulateRainfall 1 5 2 (fun _ => (1 : ℝ) / 2)
          (fun _ => (1 : ℝ) / 2),
        ∃ r : ℝ, x = some r ∧ 0 ≤ r :=
  simulateRainfall_length_nonneg_of_pos_draws 1 5 2 _ _ (by norm_num)
    (fun _ => by norm_num) (fun _ => by norm_num)

/-- C4: the code does not guard the Box-Muller transform against u1 = 0.
Evaluating the embedded generator at a draw stream whose u1 is exactly 0
(with u2 = 1/4) yields a day whose sample is not a numeric value, contrary
to the spec's requirement that implementations guard this edge case. -/
theorem simulateRainfall_unguarded_zero_draw :
    simulateRainfall 1 5 2 (fun _ => 0) (fun _ => 1 / 4) = [none] := by
  simp [simulateRainfall, boxMullerSample]

/-- C5: the harvested-water conversion returns a series of the same length
as the rainfall series, with every element equal to
rainfall * roofArea * runoffCoefficient; this holds for every roofArea and
runoffCoefficient, with no error channel. -/
theorem calculateHarvestedWater_elementwise
    (roofArea runoffCoefficient : ℚ) (r : List ℚ) :
    (calculateHarvestedWater ⟨roofArea, runoffCoefficient⟩ r).length =
        r.length ∧
      ∀ i : ℕ,
        (calculateHarvestedWater ⟨roofArea, runoffCoefficient⟩ r)[i]? =
          (r[i]?).map fun x => x * roofArea * runoffCoefficient := by
  constructor
  · simp [calculateHarvestedWater]
  · intro i
    simp [calculateHarvestedWater]

/-- C6: when both input series have at least 7 elements, getWeeklyData
succeeds with exactly 7 entries; entry i (0-based) has day field i + 1
(so the day fields are 1..7 in order) and carries the i-th raw rainfall
and harvested values rounded to one decimal place. -/
theorem getWeeklyData_first_seven (rainfallData harvestedWater : List ℚ)
    (hr : 7 ≤ rainfallData.length) (hh : 7 ≤ harvestedWater.length) :
    ∃ l, getWeeklyData rainfallData harvestedWater = some l ∧
      l.length = 7 ∧
      ∀ i : ℕ, i < 7 →
        l[i]? = some ⟨i + 1, toFixed1 (rainfallData.getD i 0),
          toFixed1 (harvestedWater.getD i 0)⟩ := by
  refine ⟨(List.range 7).map fun i =>
    ⟨i + 1, toFixed1 (rainfallData.getD i 0),
      toFixed1 (harvestedWater.getD i 0)⟩, ?_, ?_, ?_⟩
  · apply weeklyLoop_eq_some_map
    intro i hi
    have hi7 : i < 7 := List.mem_range.mp hi
    have hir : i < rainfallData.length := lt_of_lt_of_le hi7 hr
    have hih : i < harvestedWater.length := lt_of_lt_of_le hi7 hh
    have h1 : rainfallData[i]? = some rainfallData[i] :=
      List.getElem?_eq_getElem hir
    have h2 : harvestedWater[i]? = some harvestedWater[i] :=
      List.getElem?_eq_getElem hih
    simp [weeklyEntry, h1, h2, List.getD_eq_getElem?_getD, Option.getD]
  · simp
  · intro i hi7
    rw [List.getElem?_map, List.getElem?_range hi7]
    rfl

theorem getWeeklyData_first_seven_witness :
    ∃ l, getWeeklyData (List.replicate 7 (1 : ℚ))
        (List.replicate 7 (1 : ℚ)) = some l ∧
      l.length = 7 ∧
      ∀ i : ℕ, i < 7 →
        l[i]? = some ⟨i + 1,
          toFixed1 ((List.replicate 7 (1 : ℚ)).getD i 0),
          toFixed1 ((List.replicate 7 (1 : ℚ)).getD i 0)⟩ :=
  getWeeklyData_first_seven (List.replicate 7 (1 : ℚ))
    (List.replicate 7 (1 : ℚ)) (by simp) (by simp)

/-- C7: when the two series have equal length n, getMonthlyData returns
exactly floor(n / 30) entries with month fields 1..floor(n / 30); entry i
(0-based) sums the 30 days at offsets i * 30 .. i * 30 + 29 of each series
(rounded to one decimal), so the trailing n mod 30 days appear in no
entry. -/
theorem getMonthlyData_blocks (rainfallData harvestedWater : List ℚ)
    (hlen : harvestedWater.length = rainfallData.length) :
    (getMonthlyData rainfallData harvestedWater).length =
        rainfallData.length / 30 ∧
      ∀ i : ℕ, i < rainfallData.length / 30 →
        (getMonthlyData rainfallData harvestedWater)[i]? =
          some ⟨i + 1,
            toFixed1 (((List.range 30).map fun j =>
              rainfallData.getD (i * 30 + j) 0).sum),
            toFixed1 (((List.range 30).map fun j =>
              harvestedWater.getD (i * 30 + j) 0).sum)⟩ := by
  constructor
  · simp [getMonthlyData]
  · intro i hi
    have hbound : i * 30 + 30 ≤ rainfallData.length := by
      have h1 : (i + 1) * 30 ≤ rainfallData.length / 30 * 30 :=
        Nat.mul_le_mul_right 30 (Nat.succ_le_of_lt hi)
      have h2 : rainfallData.length / 30 * 30 ≤ rainfallData.length :=
        Nat.div_mul_le_self _ 30
      omega
    have hbound2 : i * 30 + 30 ≤ harvestedWater.length := by omega
    rw [getMonthlyData]
    simp only [List.getElem?_map, List.getElem?_range hi,
      Option.map_some']
    rw [slice_sum_eq rainfallData (i * 30) 30 hbound,
      slice_sum_eq harvestedWater (i * 30) 30 hbound2]

theorem getMonthlyData_blocks_witness :
    (getMonthlyData (List.replicate 30 (1 : ℚ))
        (List.replicate 30 (1 : ℚ))).length =
        (List.replicate 30 (1 : ℚ)).length / 30 ∧
      ∀ i : ℕ, i < (List.replicate 30 (1 : ℚ)).length / 30 →
        (getMonthlyData (List.replicate 30 (1 : ℚ))
            (List.replicate 30 (1 : ℚ)))[i]? =
          some ⟨i + 1,
            toFixed1 (((List.range 30).map fun j =>
              (List.replicate 30 (1 : ℚ)).getD (i * 30 + j) 0).sum),
            toFixed1 (((List.range 30).map fun j =>
              (List.replicate 30 (1 : ℚ)).getD (i * 30 + j) 0).sum)⟩ :=
  getMonthlyData_blocks (List.replicate 30 (1 : ℚ))
    (List.replicate 30 (1 : ℚ)) rfl

/-- C8 as stated is false: each monthly entry is rounded to one decimal,
and rounding half up can round a block sum upward, so the sum of the
entries' rainfall can strictly exceed the total rainfall of the series.
Concretely, for the 30-day series 0.06, 0, ..., 0 the single entry holds
0.1 while the total rainfall is 0.06. -/
theorem getMonthlyData_rounding_exceeds_total :
    ¬ (((getMonthlyData ((3 / 50 : ℚ) :: List.replicate 29 0)
          ((3 / 50 : ℚ) :: List.replicate 29 0)).map
        MonthlyEntry.rainfall).sum ≤
      ((3 / 50 : ℚ) :: List.replicate 29 0).sum) := by
  have h30 : ((3 / 50 : ℚ) :: List.replicate 29 0).length = 30 := by simp
  have hsum : ((3 / 50 : ℚ) :: List.replicate 29 0).sum = 3 / 50 := by
    simp
  have htake : ((((3 / 50 : ℚ) :: List.replicate 29 0).drop 0).take 30) =
      (3 / 50 : ℚ) :: List.replicate 29 0 := by
    apply List.take_of_length_le
    simp
  simp only [getMonthlyData, h30]
  norm_num [List.range_succ, htake, hsum, toFixed1]

/-- C8 amended: with all rainfall values nonnegative, the sum of the
monthly entries' rainfall fields can exceed the total rainfall only by the
one-decimal rounding slack: it is at most the total plus 1/20 per entry
(the unrounded block sums alone never exceed the total). -/
theorem getMonthlyData_sum_le_total_slack
    (rainfallData harvestedWater : List ℚ)
    (hnn : ∀ x ∈ rainfallData, 0 ≤ x) :
    ((getMonthlyData rainfallData harvestedWater).map
        MonthlyEntry.rainfall).sum ≤
      rainfallData.sum + (rainfallData.length / 30 : ℕ) * (1 / 20) := by
  rw [getMonthlyData]
  simp only [List.map_map]
  have hstep1 :
      ((List.range (rainfallData.length / 30)).map
        (MonthlyEntry.rainfall ∘ fun i =>
          (⟨i + 1,
            toFixed1 ((rainfallData.drop (i * 30)).take 30).sum,
            toFixed1 ((harvestedWater.drop (i * 30)).take 30).sum⟩ :
            MonthlyEntry))).sum ≤
      ((List.range (rainfallData.length / 30)).map fun i =>
        ((rainfallData.drop (i * 30)).take 30).sum + 1 / 20).sum := by
    apply List.sum_le_sum
    intro i _
    exact toFixed1_le_add_slack _
  refine le_trans hstep1 ?_
  rw [sum_map_add_split, blocks_sum_eq_take]
  have hconst : ((List.range (rainfallData.length / 30)).map
      fun _ : ℕ => (1 : ℚ) / 20).sum =
      (rainfallData.length / 30 : ℕ) * (1 / 20) := by
    have hfc : (fun _ : ℕ => (1 : ℚ) / 20) =
        Function.const ℕ ((1 : ℚ) / 20) := rfl
    rw [hfc, List.map_const, List.sum_replicate, List.length_range,
      nsmul_eq_mul]
  rw [hconst]
  have := take_sum_le_total rainfallData (rainfallData.length / 30 * 30) hnn
  linarith

theorem getMonthlyData_sum_le_total_slack_witness :
    ((getMonthlyData [(1 : ℚ)] []).map MonthlyEntry.rainfall).sum ≤
      [(1 : ℚ)].sum + ([(1 : ℚ)].length / 30 : ℕ) * (1 / 20) :=
  getMonthlyData_sum_le_total_slack [(1 : ℚ)] [] (by norm_num)

/-- C9: if either input series has fewer than 7 elements, getWeeklyData
fails (the JS loop throws a TypeError on the first undefined access,
modelled as none) instead of returning a 7-entry table, so a well-formed
result is only guaranteed when both lengths are at least 7. -/
theorem getWeeklyData_short_input_fails
    (rainfallData harvestedWater : List ℚ)
    (hshort : rainfallData.length < 7 ∨ harvestedWater.length < 7) :
    getWeeklyData rainfallData harvestedWater = none := by
  apply weeklyLoop_eq_none
  rcases hshort with hs | hs
  · refine ⟨rainfallData.length, List.mem_range.mpr hs, ?_⟩
    have h1 : rainfallData[rainfallData.length]? = none :=
      List.getElem?_eq_none le_rfl
    cases h2 : harvestedWater[rainfallData.length]? with
    | none => simp [weeklyEntry, h1, h2]
    | some v => simp [weeklyEntry, h1, h2]
  · refine ⟨harvestedWater.length, List.mem_range.mpr hs, ?_⟩
    have h2 : harvestedWater[harvestedWater.length]? = none :=
      List.getElem?_eq_none le_rfl
    cases h1 : rainfallData[harvestedWater.length]? with
    | none => simp [weeklyEntry, h1, h2]
    | some v => simp [weeklyEntry, h1, h2]

theorem getWeeklyData_short_input_fails_witness :
    getWeeklyData [(1 : ℚ)] [(1 : ℚ)] = none :=
  getWeeklyData_short_input_fails [(1 : ℚ)] [(1 : ℚ)]
    (Or.inl (by norm_num))

/-- C10: optimizeStorageCapacity is deterministic (a pure function: equal
inputs give equal outputs) and always returns maxStorageNeeded ≥ 0 and
overflow ≥ 0, also for non-positive consumption and negative harvests. -/
theorem optimizeStorageCapacity_deterministic_nonneg
    (harvestedWater : List ℚ) (dailyConsumption : ℚ) :
    optimizeStorageCapacity harvestedWater dailyConsumption =
        optimizeStorageCapacity harvestedWater dailyConsumption ∧
      0 ≤ (optimizeStorageCapacity harvestedWater dailyConsumption).1 ∧
      0 ≤ (optimizeStorageCapacity harvestedWater dailyConsumption).2 := by
  rw [optimizeStorageCapacity,
    optLoop_eq dailyConsumption harvestedWater 0 0 0 le_rfl le_rfl]
  exact ⟨rfl, foldl_max_init_le _ 0, le_rfl⟩
